import Mathlib

/-!
Verification of the polygon-netflow-indexer core against its specification.

The development shallowly embeds the three modules the claims touch:
* `src/indexer.rs` — `handle_log`: finality gate, idempotent ledger insert,
  exchange classification, and the two SQLite netflow UPDATE statements;
* `src/db.rs` — the `erc20_transfers` and `netflow_state` schemas (TEXT
  amount columns, 64-bit `INTEGER` casts in the UPDATE expressions);
* `src/api.rs` — `netflow_handler`: row fallback, arbitrary-precision
  parse, and the decimal rendering closure `fmt`.

Machine integers are modelled as `Nat`/`Int`.  SQLite semantics used by the
UPDATE expression were checked against SQLite 3.40: `CAST(t AS INTEGER)` of a
decimal text saturates at ±2^63−1, and 64-bit integer addition that overflows
switches to REAL arithmetic (leaving the decimal-integer text domain, which
the model signals with `none`).
-/

/-- Largest signed 64-bit integer, the range of SQLite's INTEGER affinity. -/
def I64_MAX : Nat := 9223372036854775807

/-- SQLite `CAST(t AS INTEGER)` applied to the canonical decimal text of a
natural number: the value, saturating at `I64_MAX` when it exceeds the signed
64-bit range. -/
def castTextToI64 (n : Nat) : Nat := min n I64_MAX

/-- One row of the `erc20_transfers` table (`db.rs`, `init_db`): primary key
`(tx_hash, log_index)`.  Hashes, addresses and the TEXT-stored `amount_wei`
are modelled by their numeric values; `sender`/`recipient` stand for the
quoted `"from"`/`"to"` columns (`from` is reserved in Lean). -/
structure LedgerRow where
  tx_hash : Nat
  log_index : Nat
  block_number : Nat
  contract : Nat
  sender : Nat
  recipient : Nat
  amount_wei : Nat
deriving DecidableEq

/-- The persistent state `handle_log` reads and writes: the `erc20_transfers`
ledger and the singleton `netflow_state` row (`cumulative_in_wei`,
`cumulative_out_wei`, `last_block`).  The cumulative columns are TEXT; while
the stored text is a canonical decimal integer it is modelled by its numeric
value. -/
structure Db where
  ledger : List LedgerRow
  cumulative_in : Nat
  cumulative_out : Nat
  last_block : Option Nat
deriving DecidableEq

/-- A log delivered by the subscription, after ABI decoding: `topics.getD 1`
and `topics.getD 2` carry the 32-byte-padded sender and recipient, and
`data_amount` is the `uint256` decoded from the data field by
`ethers::abi::Uint::decode` (a decode failure aborts `handle_log` before any
write, leaving the database unchanged, so it is not modelled further). -/
structure Log where
  block_number : Option Nat
  topics : List Nat
  data_amount : Nat
  transaction_hash : Option Nat
  log_index : Option Nat

/-- `H160::from_slice(&topic.as_bytes()[12..])`: the low 20 bytes of a
32-byte topic word. -/
def addrOfTopic (t : Nat) : Nat := t % 2 ^ 160

/-- The finality gate of `handle_log` (indexer.rs:65): the transfer proceeds
unless `head.saturating_sub(bn) < confirmations`.  `Nat` subtraction is
exactly `saturating_sub`. -/
def finalityPass (confirmations head bn : Nat) : Bool :=
  !(decide (head - bn < confirmations))

/-- Whether a ledger row with the given `(tx_hash, log_index)` primary key is
present. -/
def hasKey (ledger : List LedgerRow) (tx li : Nat) : Bool :=
  ledger.any fun r => r.tx_hash == tx && r.log_index == li

/-- `INSERT OR IGNORE INTO erc20_transfers` (indexer.rs:87-99): append the
row unless a row with the same `(tx_hash, log_index)` key already exists. -/
def insertOrIgnore (ledger : List LedgerRow) (r : LedgerRow) : List LedgerRow :=
  if hasKey ledger r.tx_hash r.log_index then ledger else ledger ++ [r]

/-- The SQLite expression
`CAST((CAST(cum AS INTEGER) + CAST(amt AS INTEGER)) AS TEXT)` used by both
netflow UPDATE statements: each TEXT operand is cast through a signed 64-bit
integer (saturating, `castTextToI64`), then added.  When the 64-bit sum
overflows, SQLite switches to REAL arithmetic and the stored text stops being
a decimal integer; the model signals that exit from the integer domain with
`none`. -/
def sqliteAddWei (cum amt : Nat) : Option Nat :=
  let s := castTextToI64 cum + castTextToI64 amt
  if s ≤ I64_MAX then some s else none

/-- `last_block = MAX(COALESCE(last_block, 0), ?)` with the transfer's block
number bound. -/
def bumpLastBlock (lb : Option Nat) (bn : Nat) : Option Nat :=
  some (max (lb.getD 0) bn)

/-- The `cumulative_in_wei` UPDATE fired when the recipient is an exchange
member (indexer.rs:107-117). -/
def applyIn (db : Db) (amount bn : Nat) : Option Db :=
  (sqliteAddWei db.cumulative_in amount).map fun s =>
    { db with cumulative_in := s, last_block := bumpLastBlock db.last_block bn }

/-- The `cumulative_out_wei` UPDATE fired when the sender is an exchange
member (indexer.rs:118-128). -/
def applyOut (db : Db) (amount bn : Nat) : Option Db :=
  (sqliteAddWei db.cumulative_out amount).map fun s =>
    { db with cumulative_out := s, last_block := bumpLastBlock db.last_block bn }

/-- `handle_log` (indexer.rs:59-132), given the current head block, the
exchange membership table (`is_exchange` does a case-insensitive lookup over
canonically lower-cased addresses, so it is a fixed membership function on
address values) and the monitored token address.  Missing block number, an
unconfirmed block, or fewer than three topics leave the database unchanged.
Returns `none` only when a netflow UPDATE leaves the 64-bit integer domain
(see `sqliteAddWei`). -/
def handleLog (confirmations : Nat) (isExchange : Nat → Bool) (token : Nat)
    (head : Nat) (lg : Log) (db : Db) : Option Db :=
  match lg.block_number with
  | none => some db
  | some bn =>
    if finalityPass confirmations head bn = false then some db
    else if lg.topics.length < 3 then some db
    else
      let sender := addrOfTopic (lg.topics.getD 1 0)
      let recipient := addrOfTopic (lg.topics.getD 2 0)
      let amount := lg.data_amount
      let row : LedgerRow :=
        { tx_hash := lg.transaction_hash.getD 0
          log_index := lg.log_index.getD 0
          block_number := bn
          contract := token
          sender := sender
          recipient := recipient
          amount_wei := amount }
      let db1 : Db := { db with ledger := insertOrIgnore db.ledger row }
      let senderIsEx := isExchange sender
      let recipientIsEx := isExchange recipient
      if senderIsEx || recipientIsEx then
        match (if recipientIsEx then applyIn db1 amount bn else some db1) with
        | none => none
        | some db2 => if senderIsEx then applyOut db2 amount bn else some db2
      else some db1

/-- An empty database: no ledger rows, the seeded `netflow_state` row with
both cumulative columns at their `'0'` defaults and `last_block` NULL
(`db.rs`, `init_db`). -/
def db0 : Db := ⟨[], 0, 0, none⟩

/-- A transfer log at block 100 from address `5` to address `7` with the
given transaction hash and amount, log position 0. -/
def mkLog (tx amt : Nat) : Log := ⟨some 100, [0, 5, 7], amt, some tx, some 0⟩

/-- A membership table whose only exchange address is `7`. -/
def exOnly7 : Nat → Bool := fun a => a == 7

/-- A row with the key `(tx_hash, log_index)` ends up present after
`INSERT OR IGNORE`. -/
theorem hasKey_insertOrIgnore (l : List LedgerRow) (r : LedgerRow) :
    hasKey (insertOrIgnore l r) r.tx_hash r.log_index = true := by
  unfold insertOrIgnore
  by_cases h : hasKey l r.tx_hash r.log_index = true
  · simp [h]
  · rw [if_neg (by simp [h])]
    unfold hasKey at h ⊢
    simp [List.any_append]

/-- Claim C3, amended: the finality gate passes iff
`head − blockNumber ≥ confirmations` holds over the integers **or**
`confirmations = 0`; the saturating subtraction makes a zero confirmation
depth admit transfers from blocks beyond the head. -/
theorem finality_gate_saturating_characterisation
    (confirmations head bn : Nat) :
    finalityPass confirmations head bn = true ↔
      ((confirmations : Int) ≤ (head : Int) - (bn : Int) ∨ confirmations = 0) := by
  unfold finalityPass
  simp only [Bool.not_eq_true', decide_eq_false_iff_not, not_lt]
  omega

/-- Claim C3 counterexample: with `confirmations = 0`, `head = 5` and a
transfer at block `10`, the gate passes although `head − blockNumber ≥ 0`
fails over the integers, so the claimed iff is false. -/
theorem finality_gate_iff_fails_at_zero_confirmations :
    finalityPass 0 5 10 = true ∧ ¬ ((0 : Int) ≤ (5 : Int) - (10 : Int)) := by
  constructor
  · rfl
  · decide

/-- Witness for the amended claim C3 at `confirmations = 20`, `head = 120`,
`bn = 100`. -/
theorem finality_gate_saturating_characterisation_witness :
    finalityPass 20 120 100 = true ↔
      ((20 : Int) ≤ (120 : Int) - (100 : Int) ∨ 20 = 0) :=
  finality_gate_saturating_characterisation 20 120 100

/-- Claim C4 counterexample: with `confirmations = 20` and `head = 25`, a
transfer at block `10` is dropped by the gate (25 − 10 = 15 < 20), contrary
to the claim that it is accepted. -/
theorem spec_example_block10_is_rejected :
    finalityPass 20 25 10 = false := by
  rfl

/-- Claim C4, amended: with `confirmations = 20` and head block `25`,
transfers at block `10` and at block `6` are both rejected by the finality
gate (15 < 20 and 19 < 20). -/
theorem head25_conf20_rejects_block10_and_block6 :
    finalityPass 20 25 10 = false ∧ finalityPass 20 25 6 = false := by
  constructor <;> rfl

/-- Claim C1: processing the same `(transaction id, log position)` transfer
twice keeps the ledger at a single row, yet the netflow UPDATE fires again on
the replay — `cumulative_in` goes from 5 to 10, so the aggregator reflects
the amount twice, contradicting the claimed idempotence. -/
theorem replay_reaggregates_amount :
    handleLog 20 exOnly7 3 120 (mkLog 1 5) db0
      = some ⟨[⟨1, 0, 100, 3, 5, 7, 5⟩], 5, 0, some 100⟩
    ∧ handleLog 20 exOnly7 3 120 (mkLog 1 5)
        ⟨[⟨1, 0, 100, 3, 5, 7, 5⟩], 5, 0, some 100⟩
      = some ⟨[⟨1, 0, 100, 3, 5, 7, 5⟩], 10, 0, some 100⟩
    ∧ (⟨[⟨1, 0, 100, 3, 5, 7, 5⟩], 10, 0, some 100⟩ : Db)
      ≠ ⟨[⟨1, 0, 100, 3, 5, 7, 5⟩], 5, 0, some 100⟩ := by
  refine ⟨rfl, rfl, by decide⟩

/-- Claim C2: a single confirmed transfer of `10^19` wei (10 tokens) to an
exchange address is clamped by the SQLite 64-bit `CAST` — the stored
cumulative total becomes `2^63 − 1`, not the exact sum `10^19`. -/
theorem amount_clamped_through_i64_cast :
    handleLog 20 exOnly7 3 120 (mkLog 1 10000000000000000000) db0
      = some ⟨[⟨1, 0, 100, 3, 5, 7, 10000000000000000000⟩],
               9223372036854775807, 0, some 100⟩
    ∧ (9223372036854775807 : Nat) ≠ 10000000000000000000 := by
  refine ⟨rfl, by decide⟩

/-- Claim C5: after one confirmed transfer of `2^63 − 1` wei to an exchange
address, a second one makes the 64-bit addition inside the UPDATE overflow,
so SQLite leaves the decimal-integer text domain (REAL arithmetic; the model
reports `none`).  Checked against SQLite 3.40, the stored text becomes
`'1.84467440737096e+19'` and the next UPDATE's `CAST` collapses it to its
integer prefix `1`, after which `cumulative_in` has decreased. -/
theorem cumulative_in_update_overflows_i64_domain :
    handleLog 20 exOnly7 3 120 (mkLog 1 9223372036854775807) db0
      = some ⟨[⟨1, 0, 100, 3, 5, 7, 9223372036854775807⟩],
               9223372036854775807, 0, some 100⟩
    ∧ handleLog 20 exOnly7 3 120 (mkLog 2 9223372036854775807)
        ⟨[⟨1, 0, 100, 3, 5, 7, 9223372036854775807⟩],
          9223372036854775807, 0, some 100⟩
      = none := by
  refine ⟨rfl, rfl⟩

/-- Claim C6: a confirmed transfer neither of whose addresses is an exchange
member leaves the whole `netflow_state` row unchanged, while its ledger row
is present after processing. -/
theorem nonmember_transfer_frame
    (confirmations token head bn : Nat) (isExchange : Nat → Bool)
    (lg : Log) (db : Db)
    (hbn : lg.block_number = some bn)
    (hfin : finalityPass confirmations head bn = true)
    (htop : 3 ≤ lg.topics.length)
    (hs : isExchange (addrOfTopic (lg.topics.getD 1 0)) = false)
    (hr : isExchange (addrOfTopic (lg.topics.getD 2 0)) = false) :
    ∃ db', handleLog confirmations isExchange token head lg db = some db'
      ∧ db'.cumulative_in = db.cumulative_in
      ∧ db'.cumulative_out = db.cumulative_out
      ∧ db'.last_block = db.last_block
      ∧ hasKey db'.ledger (lg.transaction_hash.getD 0) (lg.log_index.getD 0)
          = true := by
  have hlt : ¬ lg.topics.length < 3 := by omega
  unfold handleLog
  rw [hbn]
  simp only [hfin, Bool.true_eq_false, hlt, hs, hr, Bool.or_self,
    Bool.false_eq_true, if_false]
  exact ⟨_, rfl, rfl, rfl, rfl, hasKey_insertOrIgnore _ _⟩

/-- Witness for claim C6 at a concrete confirmed non-member transfer. -/
theorem nonmember_transfer_frame_witness :
    ∃ db', handleLog 20 (fun _ => false) 3 120 (mkLog 1 5) db0 = some db'
      ∧ db'.cumulative_in = db0.cumulative_in
      ∧ db'.cumulative_out = db0.cumulative_out
      ∧ db'.last_block = db0.last_block
      ∧ hasKey db'.ledger ((mkLog 1 5).transaction_hash.getD 0)
          ((mkLog 1 5).log_index.getD 0) = true :=
  nonmember_transfer_frame 20 3 120 100 (fun _ => false) (mkLog 1 5) db0
    rfl rfl (by decide) rfl rfl

/-- Claim C7, amended: for a confirmed transfer whose sender and recipient
are both exchange members, and whose two 64-bit additions stay in range, both
cumulative totals are incremented exactly once and by the same value — the
amount as seen through the SQLite 64-bit cast; when the amount and the stored
totals fit in a signed 64-bit integer that common increment is exactly the
transfer's amount. -/
theorem exchange_to_exchange_symmetric_increments
    (confirmations token head bn : Nat) (isExchange : Nat → Bool)
    (lg : Log) (db : Db)
    (hbn : lg.block_number = some bn)
    (hfin : finalityPass confirmations head bn = true)
    (htop : 3 ≤ lg.topics.length)
    (hs : isExchange (addrOfTopic (lg.topics.getD 1 0)) = true)
    (hr : isExchange (addrOfTopic (lg.topics.getD 2 0)) = true)
    (hin : castTextToI64 db.cumulative_in + castTextToI64 lg.data_amount
            ≤ I64_MAX)
    (hout : castTextToI64 db.cumulative_out + castTextToI64 lg.data_amount
            ≤ I64_MAX) :
    ∃ db', handleLog confirmations isExchange token head lg db = some db'
      ∧ db'.cumulative_in
          = castTextToI64 db.cumulative_in + castTextToI64 lg.data_amount
      ∧ db'.cumulative_out
          = castTextToI64 db.cumulative_out + castTextToI64 lg.data_amount
      ∧ (lg.data_amount ≤ I64_MAX → db.cumulative_in ≤ I64_MAX →
          db.cumulative_out ≤ I64_MAX →
          db'.cumulative_in = db.cumulative_in + lg.data_amount
          ∧ db'.cumulative_out = db.cumulative_out + lg.data_amount) := by
  have hlt : ¬ lg.topics.length < 3 := by omega
  unfold handleLog
  rw [hbn]
  simp only [hfin, Bool.true_eq_false, hlt, hs, hr, Bool.or_self,
    Bool.false_eq_true, if_false, if_true]
  unfold applyIn applyOut sqliteAddWei
  simp only [hin, hout, if_true, Option.map_some', Option.some_bind]
  refine ⟨_, rfl, rfl, rfl, fun ha hi ho => ?_⟩
  unfold castTextToI64
  rw [min_eq_left hi, min_eq_left ho, min_eq_left ha]
  exact ⟨rfl, rfl⟩

/-- Witness for the amended claim C7 at a concrete small transfer between
two exchange members. -/
theorem exchange_to_exchange_symmetric_increments_witness :
    ∃ db', handleLog 20 (fun _ => true) 3 120 (mkLog 1 5) db0 = some db'
      ∧ db'.cumulative_in
          = castTextToI64 db0.cumulative_in + castTextToI64 5
      ∧ db'.cumulative_out
          = castTextToI64 db0.cumulative_out + castTextToI64 5
      ∧ ((5 : Nat) ≤ I64_MAX → db0.cumulative_in ≤ I64_MAX →
          db0.cumulative_out ≤ I64_MAX →
          db'.cumulative_in = db0.cumulative_in + 5
          ∧ db'.cumulative_out = db0.cumulative_out + 5) :=
  exchange_to_exchange_symmetric_increments 20 3 120 100 (fun _ => true)
    (mkLog 1 5) db0 rfl rfl (by decide) rfl rfl (by decide) (by decide)

/-- Claim C7 counterexample: a confirmed exchange-to-exchange transfer of
`10^19` wei increments each cumulative total by `2^63 − 1`, not by the
transfer's amount as the claim states. -/
theorem exchange_to_exchange_increment_not_amount :
    handleLog 20 (fun _ => true) 3 120 (mkLog 1 10000000000000000000) db0
      = some ⟨[⟨1, 0, 100, 3, 5, 7, 10000000000000000000⟩],
               9223372036854775807, 9223372036854775807, some 100⟩
    ∧ (9223372036854775807 : Nat) - db0.cumulative_in
        ≠ 10000000000000000000 := by
  refine ⟨rfl, by decide⟩

/-- The fixed decimal-places constant of the query service (api.rs:28). -/
def DECIMALS : Nat := 18

/-- Left-pad the fractional digits with `'0'` to `DECIMALS` characters
(api.rs:37-41); applied only when the string is shorter. -/
def padFrac (s : String) : String :=
  if s.length < DECIMALS then
    String.mk (List.replicate (DECIMALS - s.length) '0') ++ s
  else s

/-- `while frac.ends_with('0') \x7b frac.pop(); \x7d` (api.rs:43): drop every
trailing `'0'`. -/
def trimTrailingZeros (s : String) : String :=
  String.mk ((s.data.reverse.dropWhile fun c => c == '0').reverse)

/-- The rendering closure `fmt` of `netflow_handler` (api.rs:29-46).
`rug::Integer::div_rem` truncates toward zero, the remainder keeping the
dividend's sign (`Int.tdiv`/`Int.tmod`): print the quotient and, when the
remainder is non-zero, append it as a fractional part, left-padded to
`DECIMALS` characters and with trailing zeros trimmed. -/
def fmt (x : Int) : String :=
  let scale : Int := 10 ^ DECIMALS
  let q := x.tdiv scale
  let r := x.tmod scale
  if r = 0 then toString q
  else toString q ++ "." ++ trimTrailingZeros (padFrac (toString r))

/-- `rug::Integer::from_str_radix(s, 10)` with `unwrap_or_default()`
(api.rs:23-24): parse an optionally negated decimal numeral, `0` on any
parse failure. -/
def parseWei (s : String) : Int :=
  match s.data with
  | '-' :: cs =>
    if cs ≠ [] ∧ cs.all (fun c => c.isDigit) then
      -((cs.foldl (fun acc c => 10 * acc + (c.toNat - 48)) 0 : Nat) : Int)
    else 0
  | cs =>
    if cs ≠ [] ∧ cs.all (fun c => c.isDigit) then
      ((cs.foldl (fun acc c => 10 * acc + (c.toNat - 48)) 0 : Nat) : Int)
    else 0

/-- The response body of `GET /netflow` (api.rs:8-16). -/
structure NetflowOut where
  symbol : String
  decimals : Nat
  cumulative_in : String
  cumulative_out : String
  cumulative_net : String
  last_block : Option Int
deriving DecidableEq

/-- `netflow_handler` (api.rs:18-57), taking the `netflow_state` row as read
by the SELECT; `none` when `fetch_one` finds no row, in which case
`unwrap_or(("0".into(), "0".into(), None))` supplies the fallback triple. -/
def netflow_handler (row : Option (String × String × Option Int)) :
    NetflowOut :=
  let t := row.getD ("0", "0", none)
  let in_int := parseWei t.1
  let out_int := parseWei t.2.1
  let net := in_int - out_int
  { symbol := "POL"
    decimals := 18
    cumulative_in := fmt in_int
    cumulative_out := fmt out_int
    cumulative_net := fmt net
    last_block := t.2.2 }

/-- Modelled from the spec (section 4.6), for comparison with `fmt`: a
non-negative raw amount is rendered by dividing by `10^18`, keeping the
integer quotient, and appending a fractional part only when the remainder is
non-zero — the remainder zero-padded on the left to the fixed decimal width,
then with trailing zeros trimmed. -/
def specRender (n : Nat) : String :=
  if n % 10 ^ 18 = 0 then toString (n / 10 ^ 18)
  else toString (n / 10 ^ 18) ++ "."
        ++ trimTrailingZeros (padFrac (toString (n % 10 ^ 18)))

/-- Claim C8: on every non-negative raw amount the query service's renderer
agrees with the spec's description, and the three worked examples hold:
`1500000000000000000 ↦ "1.5"`, `2000000000000000000 ↦ "2"`, `0 ↦ "0"`. -/
theorem fmt_matches_spec_on_nonneg :
    (∀ n : Nat, fmt (n : Int) = specRender n)
    ∧ fmt 1500000000000000000 = "1.5"
    ∧ fmt 2000000000000000000 = "2"
    ∧ fmt 0 = "0" := by
  refine ⟨fun n => ?_, by decide, by decide, by decide⟩
  have hscale : ((10 : Int) ^ DECIMALS) = ((10 ^ 18 : Nat) : Int) := by
    norm_num [DECIMALS]
  have htd : Int.tdiv (↑n) ((10 ^ 18 : Nat) : Int)
      = ((n / 10 ^ 18 : Nat) : Int) := rfl
  have htm : Int.tmod (↑n) ((10 ^ 18 : Nat) : Int)
      = ((n % 10 ^ 18 : Nat) : Int) := rfl
  have hts : ∀ k : Nat, toString ((k : Nat) : Int) = toString k := fun _ => rfl
  unfold fmt specRender
  dsimp only
  rw [hscale, htd, htm]
  by_cases h : n % 10 ^ 18 = 0
  · rw [if_pos (by exact_mod_cast h), if_pos h, hts]
  · rw [if_neg (by exact_mod_cast h), if_neg h, hts, hts]

/-- Claim C9: when the `netflow_state` lookup yields no row, the handler
still answers, with all three cumulative fields rendered from zero and
`last_block` null. -/
theorem missing_row_renders_zeros :
    netflow_handler none
      = ⟨"POL", 18, "0", "0", "0", none⟩ := by
  decide

/-- A character the predicate rejects is never removed by `dropWhile`. -/
theorem mem_dropWhile_of_mem {c : Char} {p : Char → Bool} {l : List Char}
    (h : c ∈ l) (hc : p c = false) : c ∈ l.dropWhile p := by
  induction l with
  | nil => cases h
  | cons a l ih =>
    by_cases ha : p a = true
    · rw [List.dropWhile_cons_of_pos ha]
      rcases List.mem_cons.mp h with rfl | h2
      · rw [hc] at ha; cases ha
      · exact ih h2
    · rw [List.dropWhile_cons_of_neg ha]
      exact h

/-- A non-`'0'` character of `s` survives the trailing-zero trim. -/
theorem mem_trimTrailingZeros {c : Char} {s : String} (h : c ∈ s.data)
    (hc : (c == '0') = false) : c ∈ (trimTrailingZeros s).data := by
  show c ∈ ((s.data.reverse.dropWhile fun ch => ch == '0').reverse)
  rw [List.mem_reverse]
  exact mem_dropWhile_of_mem (List.mem_reverse.mpr h) hc

/-- Every character of `s` survives the left padding. -/
theorem mem_padFrac {c : Char} {s : String} (h : c ∈ s.data) :
    c ∈ (padFrac s).data := by
  unfold padFrac
  by_cases hl : s.length < DECIMALS
  · rw [if_pos hl, String.data_append]
    exact List.mem_append.mpr (Or.inr h)
  · rw [if_neg hl]
    exact h

/-- The decimal representation of a negative integer contains the minus
sign. -/
theorem neg_mem_toString {r : Int} (h : r < 0) : '-' ∈ (toString r).data := by
  cases r with
  | ofNat k => rw [Int.ofNat_eq_natCast] at h; exfalso; omega
  | negSucc m =>
    show '-' ∈ ('-' :: (Nat.repr (m + 1)).data)
    exact List.mem_cons_self _ _

/-- The truncating remainder of a negative dividend is nonpositive. -/
theorem tmod_nonpos_of_neg : ∀ {x : Int} (y : Int), x < 0 → x.tmod y ≤ 0 := by
  intro x y hx
  cases x with
  | ofNat k => rw [Int.ofNat_eq_natCast] at hx; exfalso; omega
  | negSucc m =>
    cases y with
    | ofNat n =>
      show -(Int.ofNat ((m + 1) % n)) ≤ 0
      rw [Int.ofNat_eq_natCast]
      omega
    | negSucc n =>
      show -(Int.ofNat ((m + 1) % (n + 1))) ≤ 0
      rw [Int.ofNat_eq_natCast]
      omega

/-- Claim C10: for every negative raw amount that is not an exact multiple
of `10^18` (as `cumulative_net` can be when `cumulative_out` exceeds
`cumulative_in`), the renderer emits the quotient truncated toward zero
followed by a fractional part that itself carries a minus sign — not a
well-formed signed decimal numeral; in particular `-1500000000000000000`
renders as `"-1.-5"`. -/
theorem negative_amount_renders_malformed :
    (∀ x : Int, x < 0 → ¬ ((10 : Int) ^ DECIMALS ∣ x) →
      ∃ frac,
        fmt x = toString (x.tdiv ((10 : Int) ^ DECIMALS)) ++ "." ++ frac
        ∧ '-' ∈ frac.data)
    ∧ fmt (-1500000000000000000) = "-1.-5" := by
  constructor
  · intro x hx hdvd
    have hr0 : ¬ x.tmod ((10 : Int) ^ DECIMALS) = 0 := fun h =>
      hdvd (Int.dvd_iff_tmod_eq_zero.mpr h)
    have hrle : x.tmod ((10 : Int) ^ DECIMALS) ≤ 0 := tmod_nonpos_of_neg _ hx
    have hrlt : x.tmod ((10 : Int) ^ DECIMALS) < 0 :=
      lt_of_le_of_ne hrle hr0
    refine ⟨trimTrailingZeros
        (padFrac (toString (x.tmod ((10 : Int) ^ DECIMALS)))), ?_, ?_⟩
    · unfold fmt
      dsimp only
      rw [if_neg hr0]
    · exact mem_trimTrailingZeros (mem_padFrac (neg_mem_toString hrlt))
        (by decide)
  · decide

/-- Witness for claim C10 at the concrete negative amount `-5`. -/
theorem negative_amount_renders_malformed_witness :
    ∃ frac,
      fmt (-5) = toString (Int.tdiv (-5) ((10 : Int) ^ DECIMALS)) ++ "." ++ frac
      ∧ '-' ∈ frac.data :=
  negative_amount_renders_malformed.1 (-5) (by decide)
    (by
      rintro ⟨c, hc⟩
      rw [show ((10 : Int) ^ DECIMALS) = 1000000000000000000 by
        norm_num [DECIMALS]] at hc
      omega)
